import Mathlib

/-
Verification of the value-marshaling core of scyllaft (src/src/utils.rs and
src/src/consistency.rs) against its natural-language specification.

The Rust sources are shallowly embedded: pure functions become Lean
functions, fallible code returns `Except String`, machine integers become
`Int` with explicit range checks where the code checks them, and `f64`/`f32`
payloads are carried as opaque bit patterns (`Nat`) since the code never
computes with them, it only moves them across the boundary.

External collaborators (the pyo3 host runtime, the scylla protocol value
type with its `as_*` accessors, the uuid and ip-address parsers, chrono
durations) are modelled from the specification's description of their
interfaces; each such definition says so in its doc comment.
-/

set_option maxHeartbeats 1000000

namespace Scyllaft

/-! ## Consistency mapping (src/src/consistency.rs) -/

/-- Host-exposed consistency levels: the `Consistency` pyclass enum of
src/src/consistency.rs (nine members). -/
inductive Consistency where
  | ANY
  | ONE
  | TWO
  | THREE
  | QUORUM
  | ALL
  | LOCAL_QUORUM
  | EACH_QUORUM
  | LOCAL_ONE
  deriving DecidableEq

/-- Modelled from the spec: the transport layer's consistency enumeration
(`scylla::frame::types::Consistency`).  It is wider than the host enum
(it also has serial levels), which is why totality of the mapping is a
statement about the host enum's side only. -/
inductive ScyllaConsistency where
  | Any
  | One
  | Two
  | Three
  | Quorum
  | All
  | LocalQuorum
  | EachQuorum
  | LocalOne
  | Serial
  | LocalSerial
  deriving DecidableEq

/-- Embedding of `impl From<Consistency> for ScyllaConsistency`
(src/src/consistency.rs lines 25-39). -/
def ScyllaConsistency.from_consistency : Consistency → ScyllaConsistency
  | .ANY => .Any
  | .ONE => .One
  | .TWO => .Two
  | .THREE => .Three
  | .QUORUM => .Quorum
  | .ALL => .All
  | .LOCAL_QUORUM => .LocalQuorum
  | .EACH_QUORUM => .EachQuorum
  | .LOCAL_ONE => .LocalOne

/-! ## Host (Python) runtime values, as seen by the outbound encoder -/

/-- Modelled from the spec: a dynamic host value, as introspectable by the
pyo3 calls the encoder makes.  `sub = none` means the value's runtime type
is exactly the base type of its constructor; `sub = some n` means the
runtime type is a strict subclass of it, named `n` (Python allows
subclassing every one of these builtins).  `pyNamed` covers values of any
other class: it carries the class name (what `get_type().name()` returns)
and the value's `str()` rendering.  Note a separate `pyBool` constructor:
in the host runtime `bool` is a strict subtype of `int`, which the
instance-of predicates below reflect. -/
inductive PyObj where
  | pyStr (s : String) (sub : Option String)
  | pyBool (b : Bool) (sub : Option String)
  | pyInt (n : Int) (sub : Option String)
  | pyFloat (bits : Nat) (sub : Option String)
  | pyBytes (bs : List Nat) (sub : Option String)
  | pyList (xs : List PyObj) (sub : Option String)
  | pyTuple (xs : List PyObj) (sub : Option String)
  | pySet (xs : List PyObj) (sub : Option String)
  | pyNamed (typeName : String) (strForm : String)

/-- Modelled from the spec: `get_type().name()` of the host runtime — the
name of the value's exact runtime class. -/
def PyObj.type_name : PyObj → String
  | .pyStr _ sub => sub.getD "str"
  | .pyBool _ sub => sub.getD "bool"
  | .pyInt _ sub => sub.getD "int"
  | .pyFloat _ sub => sub.getD "float"
  | .pyBytes _ sub => sub.getD "bytes"
  | .pyList _ sub => sub.getD "list"
  | .pyTuple _ sub => sub.getD "tuple"
  | .pySet _ sub => sub.getD "set"
  | .pyNamed n _ => n

/-- Modelled from the spec: the host `str()` rendering, used by the encoder
only on UUID- and address-named objects (for the builtin containers the
rendering below is a placeholder that no UUID or address parser accepts,
matching the fact that a Python container's `str()` is bracketed). -/
def PyObj.str_form : PyObj → String
  | .pyStr s _ => s
  | .pyBool b _ => if b then "True" else "False"
  | .pyInt n _ => toString n
  | .pyFloat _ _ => "<float>"
  | .pyBytes _ _ => "<bytes>"
  | .pyList _ _ => "<list>"
  | .pyTuple _ _ => "<tuple>"
  | .pySet _ _ => "<set>"
  | .pyNamed _ s => s

/-- Modelled from the spec: pyo3 `is_instance_of::<PyString>` — true for
`str` and its subclasses. -/
@[simp] def is_instance_of_str : PyObj → Bool
  | .pyStr _ _ => true
  | _ => false

/-- Modelled from the spec: pyo3 `is_instance_of::<PyInt>` — the host
integer check.  In the host runtime `bool` is a subtype of `int`, so this
is also true for every boolean value. -/
@[simp] def is_instance_of_int : PyObj → Bool
  | .pyInt _ _ => true
  | .pyBool _ _ => true
  | _ => false

/-- Modelled from the spec: pyo3 `is_instance_of::<PyBool>`. -/
@[simp] def is_instance_of_bool : PyObj → Bool
  | .pyBool _ _ => true
  | _ => false

/-- Modelled from the spec: pyo3 `is_instance_of::<PyFloat>`. -/
@[simp] def is_instance_of_float : PyObj → Bool
  | .pyFloat _ _ => true
  | _ => false

/-- Modelled from the spec: pyo3 `is_instance_of::<PyBytes>`. -/
@[simp] def is_instance_of_bytes : PyObj → Bool
  | .pyBytes _ _ => true
  | _ => false

/-- Modelled from the spec: pyo3 `is_instance_of::<PyList>` — true for
`list` and its subclasses. -/
@[simp] def is_instance_of_list : PyObj → Bool
  | .pyList _ _ => true
  | _ => false

/-- Modelled from the spec: pyo3 `is_exact_instance_of::<PyTuple>` — true
only when the runtime type is exactly `tuple`, not a subclass. -/
@[simp] def is_exact_instance_of_tuple : PyObj → Bool
  | .pyTuple _ none => true
  | _ => false

/-- Modelled from the spec: pyo3 `is_exact_instance_of::<PySet>` — true
only when the runtime type is exactly `set`, not a subclass. -/
@[simp] def is_exact_instance_of_set : PyObj → Bool
  | .pySet _ none => true
  | _ => false

/-- Modelled from the spec: pyo3 `extract::<String>`. -/
@[simp] def extract_string : PyObj → Except String String
  | .pyStr s _ => .ok s
  | _ => .error "extract failed"

/-- Modelled from the spec: pyo3 `extract::<i64>`.  A host boolean extracts
to 1 or 0 (it is an integer subtype); an integer outside the signed 64-bit
range raises an overflow error. -/
@[simp] def extract_i64 : PyObj → Except String Int
  | .pyInt n _ =>
    if -(2 ^ 63) ≤ n ∧ n < 2 ^ 63 then .ok n else .error "int too big to convert"
  | .pyBool b _ => .ok (if b then 1 else 0)
  | _ => .error "extract failed"

/-- Modelled from the spec: pyo3 `extract::<bool>`. -/
@[simp] def extract_bool : PyObj → Except String Bool
  | .pyBool b _ => .ok b
  | _ => .error "extract failed"

/-- Modelled from the spec: pyo3 `extract::<f64>` (the payload is the bit
pattern, never computed with). -/
@[simp] def extract_f64 : PyObj → Except String Nat
  | .pyFloat bits _ => .ok bits
  | _ => .error "extract failed"

/-- Modelled from the spec: pyo3 `extract::<Vec<u8>>`. -/
@[simp] def extract_bytes : PyObj → Except String (List Nat)
  | .pyBytes bs _ => .ok bs
  | _ => .error "extract failed"

/-! ## External parsers used by the encoder (uuid crate, std IpAddr) -/

/-- Hex digit test (lowercase, uppercase, decimal). -/
def is_hex_digit (c : Char) : Bool :=
  c.isDigit || (('a' ≤ c) && (c ≤ 'f')) || (('A' ≤ c) && (c ≤ 'F'))

/-- Numeric value of a hex digit. -/
def hex_val (c : Char) : Nat :=
  if c.isDigit then c.toNat - 48
  else if ('a' ≤ c) && (c ≤ 'f') then c.toNat - 87
  else c.toNat - 55

/-- Modelled from the spec: `uuid::Uuid::parse_str` on its canonical input
forms — accepts the 36-character hyphenated rendering (8-4-4-4-12) or the
32-character simple rendering, all hex digits; anything else is a parse
error, which `py_to_value` propagates. -/
def uuid_parse_str (s : String) : Except String Nat :=
  let cs := s.data
  let digits : Option (List Char) :=
    if cs.length = 36 then
      match cs.splitAt 8 with
      | (g1, rest1) =>
        match rest1 with
        | '-' :: rest2 =>
          match rest2.splitAt 4 with
          | (g2, rest3) =>
            match rest3 with
            | '-' :: rest4 =>
              match rest4.splitAt 4 with
              | (g3, rest5) =>
                match rest5 with
                | '-' :: rest6 =>
                  match rest6.splitAt 4 with
                  | (g4, rest7) =>
                    match rest7 with
                    | '-' :: g5 => some (g1 ++ g2 ++ g3 ++ g4 ++ g5)
                    | _ => none
                | _ => none
            | _ => none
        | _ => none
    else if cs.length = 32 then some cs
    else none
  match digits with
  | none => .error "invalid UUID"
  | some ds =>
    if ds.length = 32 && ds.all is_hex_digit then
      .ok (ds.foldl (fun a c => a * 16 + hex_val c) 0)
    else .error "invalid UUID"

/-- Modelled from the spec: the host network-address value
(`std::net::IpAddr`). -/
inductive IpAddr where
  | v4 (a b c d : Nat)
  | v6 (raw : String)

/-- Modelled from the spec: `IpAddr::from_str` — a dotted quad of numbers
up to 255 parses as IPv4; a colon-bearing string parses as IPv6 (kept
abstract, no claim touches it); anything else is a parse error. -/
def ipaddr_from_str (s : String) : Except String IpAddr :=
  match (s.splitOn ".").map String.toNat? with
  | [some a, some b, some c, some d] =>
    if a ≤ 255 && b ≤ 255 && c ≤ 255 && d ≤ 255 then .ok (.v4 a b c d)
    else .error "invalid IP address syntax"
  | _ =>
    if s.contains ':' then .ok (.v6 s) else .error "invalid IP address syntax"

/-! ## Outbound wire values and the encoder (src/src/utils.rs lines 34-110) -/

/-- Embedding of the `PyToValue` enum (src/src/utils.rs lines 34-46): the
tagged wire-value union the encoder produces.  Float payloads are bit
patterns. -/
inductive PyToValue where
  | String (s : String)
  | BigInt (i : Int)
  | Int (i : Int)
  | SmallInt (i : Int)
  | Bool (b : Bool)
  | Double (bits : Nat)
  | Float (bits : Nat)
  | Bytes (bs : List Nat)
  | Uuid (u : Nat)
  | Inet (i : IpAddr)
  | List (l : List PyToValue)

mutual

/-- Embedding of `py_to_value` (src/src/utils.rs lines 76-110): the
outbound classifier.  The if-chain preserves the source's branch order
exactly; in particular the host-integer instance check precedes the
boolean instance check, as in the source. -/
def py_to_value (item : PyObj) : Except String PyToValue :=
  if is_instance_of_str item then
    (extract_string item).map PyToValue.String
  else if is_instance_of_int item then
    (extract_i64 item).map PyToValue.BigInt
  else if is_instance_of_bool item then
    (extract_bool item).map PyToValue.Bool
  else if is_instance_of_float item then
    (extract_f64 item).map PyToValue.Double
  else if is_instance_of_bytes item then
    (extract_bytes item).map PyToValue.Bytes
  else if item.type_name = "UUID" then
    (uuid_parse_str item.str_form).map PyToValue.Uuid
  else if item.type_name = "IPv4Address" || item.type_name = "IPv6Address" then
    (ipaddr_from_str item.str_form).map PyToValue.Inet
  else if is_instance_of_list item || is_exact_instance_of_tuple item
      || is_exact_instance_of_set item then
    match item with
    | .pyList xs _ => (py_to_value_list xs).map PyToValue.List
    | .pyTuple xs _ => (py_to_value_list xs).map PyToValue.List
    | .pySet xs _ => (py_to_value_list xs).map PyToValue.List
    | other => .error ("Unsupported type for parameter binding: \"" ++ other.type_name ++ "\"")
  else
    .error ("Unsupported type for parameter binding: \"" ++ item.type_name ++ "\"")
termination_by sizeOf item

/-- Embedding of the element loop in `py_to_value`'s collection branch
(src/src/utils.rs lines 99-102): encode each element in order, aborting at
the first failure. -/
def py_to_value_list : List PyObj → Except String (List PyToValue)
  | [] => .ok []
  | x :: xs =>
    match py_to_value x with
    | .error e => .error e
    | .ok v =>
      match py_to_value_list xs with
      | .error e => .error e
      | .ok vs => .ok (v :: vs)
termination_by xs => sizeOf xs

end

/-! ## Inbound side: column type descriptors and protocol values -/

/-- Embedding of `scylla::frame::response::result::ColumnType`, the
protocol-declared column type descriptor tree, with exactly the
constructors the source dispatches on (src/src/utils.rs lines 136-294). -/
inductive ColumnType where
  | Ascii
  | Boolean
  | Blob
  | Double
  | Float
  | Int
  | BigInt
  | Text
  | List (t : ColumnType)
  | Map (k v : ColumnType)
  | Set (t : ColumnType)
  | SmallInt
  | TinyInt
  | Uuid
  | Timeuuid
  | Duration
  | Timestamp
  | Inet
  | Date
  | Tuple (ts : List ColumnType)
  | Time
  | Counter
  | Custom (name : String)
  | Varint
  | Decimal
  | UserDefinedType (type_name keyspace : String) (field_types : List (String × ColumnType))

/-- Modelled from the spec: the already wire-decoded protocol value tree
(`scylla CqlValue`-equivalent).  UUID payloads are 128-bit numbers; float
payloads are bit patterns; `Duration` and `Timestamp` carry a
chrono-duration payload measured in total nanoseconds (a timestamp is a
duration since the epoch); a `Tuple` holds per-position optional children. -/
inductive CqlValue where
  | Ascii (s : String)
  | Boolean (b : Bool)
  | Blob (bs : List Nat)
  | Double (bits : Nat)
  | Float (bits : Nat)
  | Int (i : Int)
  | BigInt (i : Int)
  | Text (s : String)
  | List (xs : List CqlValue)
  | Map (kvs : List (CqlValue × CqlValue))
  | Set (xs : List CqlValue)
  | SmallInt (i : Int)
  | TinyInt (i : Int)
  | Uuid (u : Nat)
  | Timeuuid (u : Nat)
  | Duration (nanos : Int)
  | Timestamp (nanos : Int)
  | Inet (ip : IpAddr)
  | Date (y m d : Nat)
  | Tuple (xs : List (Option CqlValue))

/-- Modelled from the spec: accessor returning the ascii payload, absent
when the stored kind does not match. -/
@[simp] def as_ascii : CqlValue → Option String
  | .Ascii s => some s
  | _ => none

/-- Modelled from the spec: boolean accessor. -/
@[simp] def as_boolean : CqlValue → Option Bool
  | .Boolean b => some b
  | _ => none

/-- Modelled from the spec: blob accessor. -/
@[simp] def as_blob : CqlValue → Option (List Nat)
  | .Blob bs => some bs
  | _ => none

/-- Modelled from the spec: double-precision accessor — it matches only the
`Double` stored kind; in particular it is absent on a `Float`-tagged value. -/
@[simp] def as_double : CqlValue → Option Nat
  | .Double bits => some bits
  | _ => none

/-- Modelled from the spec: 32-bit integer accessor. -/
@[simp] def as_int : CqlValue → Option Int
  | .Int i => some i
  | _ => none

/-- Modelled from the spec: 64-bit integer accessor. -/
@[simp] def as_bigint : CqlValue → Option Int
  | .BigInt i => some i
  | _ => none

/-- Modelled from the spec: text accessor. -/
@[simp] def as_text : CqlValue → Option String
  | .Text s => some s
  | _ => none

/-- Modelled from the spec: list accessor. -/
@[simp] def as_list : CqlValue → Option (List CqlValue)
  | .List xs => some xs
  | _ => none

/-- Modelled from the spec: map accessor (pair list in received order). -/
@[simp] def as_map : CqlValue → Option (List (CqlValue × CqlValue))
  | .Map kvs => some kvs
  | _ => none

/-- Modelled from the spec: set accessor. -/
@[simp] def as_set : CqlValue → Option (List CqlValue)
  | .Set xs => some xs
  | _ => none

/-- Modelled from the spec: 16-bit integer accessor. -/
@[simp] def as_smallint : CqlValue → Option Int
  | .SmallInt i => some i
  | _ => none

/-- Modelled from the spec: 8-bit integer accessor. -/
@[simp] def as_tinyint : CqlValue → Option Int
  | .TinyInt i => some i
  | _ => none

/-- Modelled from the spec: UUID accessor. -/
@[simp] def as_uuid : CqlValue → Option Nat
  | .Uuid u => some u
  | _ => none

/-- Modelled from the spec: time-UUID accessor. -/
@[simp] def as_timeuuid : CqlValue → Option Nat
  | .Timeuuid u => some u
  | _ => none

/-- Modelled from the spec: chrono-duration accessor, in total nanoseconds.
Both duration-kind and timestamp-kind stored values are chrono-duration
backed, so both match; every other kind is absent. -/
@[simp] def as_duration : CqlValue → Option Int
  | .Duration ns => some ns
  | .Timestamp ns => some ns
  | _ => none

/-- Modelled from the spec: network-address accessor. -/
@[simp] def as_inet : CqlValue → Option IpAddr
  | .Inet ip => some ip
  | _ => none

/-- Modelled from the spec: calendar-date accessor (chrono NaiveDate
equivalent, as a year/month/day triple). -/
@[simp] def as_date : CqlValue → Option (Nat × Nat × Nat)
  | .Date y m d => some (y, m, d)
  | _ => none

/-! ## UUID rendering and other host-side formatting -/

/-- Lowercase hex digit character for a value below 16. -/
def hex_digit_char (n : Nat) : Char :=
  if n < 10 then Char.ofNat (48 + n) else Char.ofNat (87 + n)

/-- Exactly `w` lowercase hex digits of `n`, most significant first. -/
def hex_digits : Nat → Nat → List Char
  | 0, _ => []
  | w + 1, n => hex_digits w (n / 16) ++ [hex_digit_char (n % 16)]

/-- Embedding of `uuid::fmt::Simple` rendering, used by the source's UUID
and time-UUID branches: the 32 lowercase hex digits of the 128-bit value,
with no hyphens. -/
def uuid_simple (u : Nat) : String :=
  String.mk (hex_digits 32 u)

/-- Modelled from the spec: the canonical lowercase hyphenated UUID
rendering (8-4-4-4-12 hex digit groups separated by hyphens) that the spec
says the decoder passes to the host UUID constructor.  Stated from the
spec's words, to be compared with what the source actually renders. -/
def uuid_hyphenated (u : Nat) : String :=
  let ds := hex_digits 32 u
  String.mk (ds.take 8 ++ '-' :: ((ds.drop 8).take 4)
    ++ '-' :: ((ds.drop 12).take 4)
    ++ '-' :: ((ds.drop 16).take 4)
    ++ '-' :: (ds.drop 20))

/-- Modelled from the spec: chrono `Duration::num_microseconds` — whole
microseconds of a nanosecond-precision duration, truncated toward zero
(Rust integer division). -/
def num_microseconds (nanos : Int) : Int :=
  Int.tdiv nanos 1000

/-- Modelled from the spec: chrono `Duration::num_milliseconds`. -/
def num_milliseconds (nanos : Int) : Int :=
  Int.tdiv nanos 1000000

/-- Left-pad the decimal rendering of `n` with zeros to width `w`. -/
def pad_decimal (w : Nat) (n : Nat) : String :=
  let s := toString n
  String.mk (List.replicate (w - s.length) '0') ++ s

/-- Embedding of the `%Y-%m-%d` formatting of the source's date branch. -/
def format_date (y m d : Nat) : String :=
  pad_decimal 4 y ++ "-" ++ pad_decimal 2 m ++ "-" ++ pad_decimal 2 d

/-! ## Decoded host values -/

/-- Modelled from the spec: the dynamic host value a decode produces.
Host objects built by calling an external collaborator constructor are
represented by what the source passes to that constructor: `uuidFromStr`
holds the exact string handed to the host's standard UUID constructor,
`timedelta` the microseconds keyword argument, `dateFromIso` the ISO
string handed to the host date parser.  A decoded map is the list of
decoded pairs in received order (duplicate keys are assumed deduplicated
upstream, per the spec). -/
inductive PyValue where
  | none
  | str (s : String)
  | bool (b : Bool)
  | bytes (bs : List Nat)
  | float (bits : Nat)
  | int (i : Int)
  | list (xs : List PyValue)
  | dict (kvs : List (PyValue × PyValue))
  | set (xs : List PyValue)
  | tuple (xs : List PyValue)
  | uuidFromStr (s : String)
  | timedelta (microseconds : Int)
  | dateFromIso (s : String)
  | inet (ip : IpAddr)

mutual

/-- Embedding of `cql_to_py` (src/src/utils.rs lines 128-295): the inbound
decoder.  The absent-value check precedes the dispatch on the descriptor,
as in the source; each branch goes through the same accessor the source
calls and produces the source's error string on accessor mismatch. -/
def cql_to_py (cql_type : ColumnType) (cql_value : Option CqlValue) :
    Except String PyValue :=
  match cql_value with
  | .none => .ok .none
  | some unwrapped_value =>
    match cql_type with
    | .Ascii =>
      match as_ascii unwrapped_value with
      | .none => .error "Cannot parse"
      | some val => .ok (.str val)
    | .Boolean =>
      match as_boolean unwrapped_value with
      | .none => .error "Cannot parse"
      | some val => .ok (.bool val)
    | .Blob =>
      match as_blob unwrapped_value with
      | .none => .error "Cannot parse"
      | some val => .ok (.bytes val)
    | .Double =>
      match as_double unwrapped_value with
      | .none => .error "Cannot parse"
      | some val => .ok (.float val)
    | .Float =>
      match as_double unwrapped_value with
      | .none => .error "Cannot parse"
      | some val => .ok (.float val)
    | .Int =>
      match as_int unwrapped_value with
      | .none => .error "Cannot parse"
      | some val => .ok (.int val)
    | .BigInt =>
      match as_bigint unwrapped_value with
      | .none => .error "Cannot parse"
      | some val => .ok (.int val)
    | .Text =>
      match as_text unwrapped_value with
      | .none => .error "Cannot parse"
      | some val => .ok (.str val)
    | .List column_type =>
      match as_list unwrapped_value with
      | .none => .error "Cannot parse"
      | some xs =>
        match cql_to_py_each column_type xs with
        | .error e => .error e
        | .ok items => .ok (.list items)
    | .Map key_type val_type =>
      match as_map unwrapped_value with
      | .none => .error "Cannot parse"
      | some kvs =>
        match cql_to_py_map key_type val_type kvs with
        | .error e => .error e
        | .ok pairs => .ok (.dict pairs)
    | .Set column_type =>
      match as_set unwrapped_value with
      | .none => .error "Cannot parse"
      | some xs =>
        match cql_to_py_each column_type xs with
        | .error e => .error e
        | .ok items => .ok (.set items)
    | .SmallInt =>
      match as_smallint unwrapped_value with
      | .none => .error "Cannot parse"
      | some val => .ok (.int val)
    | .TinyInt =>
      match as_tinyint unwrapped_value with
      | .none => .error "Cannot parse"
      | some val => .ok (.int val)
    | .Uuid =>
      match as_uuid unwrapped_value with
      | .none => .error ""
      | some u => .ok (.uuidFromStr (uuid_simple u))
    | .Timeuuid =>
      match as_timeuuid unwrapped_value with
      | .none => .error "Cannot parse timeuuid"
      | some u => .ok (.uuidFromStr (uuid_simple u))
    | .Duration =>
      match as_duration unwrapped_value with
      | .none => .error "Cannot parse duration"
      | some d => .ok (.timedelta (num_microseconds d))
    | .Timestamp =>
      match as_duration unwrapped_value with
      | .none => .error "Cannot parse timestamp"
      | some d => .ok (.int (num_milliseconds d))
    | .Inet =>
      match as_inet unwrapped_value with
      | .none => .error "Cannot parse inet addres"
      | some ip => .ok (.inet ip)
    | .Date =>
      match as_date unwrapped_value with
      | .none => .error "Cannot parse date"
      | some ymd => .ok (.dateFromIso (format_date ymd.1 ymd.2.1 ymd.2.2))
    | .Tuple types =>
      match unwrapped_value with
      | .Tuple data =>
        match cql_to_py_tuple types data with
        | .error e => .error e
        | .ok dumped_elemets => .ok (.tuple dumped_elemets)
      | _ => .error "Cannot parse as tuple."
    | .Time => .error "Time is not yet supported."
    | .Counter => .error "Counter is not yet supported."
    | .Custom _ => .error "Custom types are not yet supported."
    | .Varint => .error "Variant is not yet supported."
    | .Decimal => .error "Decimals are not yet supported."
    | .UserDefinedType _ _ _ => .error "UDT is not yet supported."
termination_by (sizeOf cql_type, 2, 0)
decreasing_by
all_goals simp_wf
all_goals simp_arith [Prod.lex_def]


/-- Embedding of the element loops of the source's list and set branches
(src/src/utils.rs lines 169-177 and 197-206): decode each element against
the element descriptor in received order, aborting at the first failure. -/
def cql_to_py_each (t : ColumnType) : List CqlValue → Except String (List PyValue)
  | [] => .ok []
  | v :: vs =>
    match cql_to_py t (some v) with
    | .error e => .error e
    | .ok r =>
      match cql_to_py_each t vs with
      | .error e => .error e
      | .ok rs => .ok (r :: rs)
termination_by vs => (sizeOf t, 3, vs.length)
decreasing_by
all_goals simp_wf
all_goals simp_arith [Prod.lex_def]


/-- Embedding of the pair loop of the source's map branch (src/src/utils.rs
lines 178-196): decode each key and value in received order, aborting at
the first failure. -/
def cql_to_py_map (key_type val_type : ColumnType) :
    List (CqlValue × CqlValue) → Except String (List (PyValue × PyValue))
  | [] => .ok []
  | kv :: rest =>
    match cql_to_py key_type (some kv.1) with
    | .error e => .error e
    | .ok pk =>
      match cql_to_py val_type (some kv.2) with
      | .error e => .error e
      | .ok pv =>
        match cql_to_py_map key_type val_type rest with
        | .error e => .error e
        | .ok prs => .ok ((pk, pv) :: prs)
termination_by kvs => (sizeOf key_type + sizeOf val_type + 1, 1, kvs.length)
decreasing_by
all_goals simp_wf
all_goals simp_arith [Prod.lex_def]


/-- Embedding of the zip loop of the source's tuple branch
(src/src/utils.rs lines 275-278): walk descriptors and per-position child
values in lockstep, stopping when either side runs out (the behavior of
`iter().zip(..)`), decoding each zipped position. -/
def cql_to_py_tuple : List ColumnType → List (Option CqlValue) →
    Except String (List PyValue)
  | [], _ => .ok []
  | _ :: _, [] => .ok []
  | t :: ts, ov :: ovs =>
    match cql_to_py t ov with
    | .error e => .error e
    | .ok r =>
      match cql_to_py_tuple ts ovs with
      | .error e => .error e
      | .ok rs => .ok (r :: rs)
termination_by ts _ => (sizeOf ts, 1, 0)
decreasing_by
all_goals simp_wf
all_goals simp_arith [Prod.lex_def]


end

/-- Tuple-shapedness of a decoded protocol value: exactly the pattern the
source's tuple branch tests with `if let CqlValue::Tuple(data) = ...`. -/
@[simp] def is_tuple_value : CqlValue → Bool
  | .Tuple _ => true
  | _ => false

/-! ## Row mapper (src/src/utils.rs lines 308-329) -/

/-- Embedding of the per-row body of `map_rows`: downcast the row object to
a host dict and call the constructor with the dict as keyword arguments.
The constructor is the opaque host callable `as_class`, modelled as a
function from the keyword-argument entries to a fallible result. -/
def map_row_one {β : Type} (as_class : List (PyValue × PyValue) → Except String β)
    (obj : PyValue) : Except String β :=
  match obj with
  | .dict entries => as_class entries
  | _ => .error "Cannot preapre kwargs for mapping."

/-- Embedding of the fail-fast `collect` over rows in `map_rows`. -/
def map_rows_each {β : Type} (as_class : List (PyValue × PyValue) → Except String β) :
    List PyValue → Except String (List β)
  | [] => .ok []
  | obj :: rest =>
    match map_row_one as_class obj with
    | .error e => .error e
    | .ok b =>
      match map_rows_each as_class rest with
      | .error e => .error e
      | .ok bs => .ok (b :: bs)

/-- Embedding of `map_rows` (src/src/utils.rs lines 308-329): downcast the
rows object to a host list, then construct one object per row, passing the
row's entries as keyword arguments, collecting fail-fast. -/
def map_rows {β : Type} (rows : PyValue)
    (as_class : List (PyValue × PyValue) → Except String β) :
    Except String (List β) :=
  match rows with
  | .list xs => map_rows_each as_class xs
  | _ => .error "Cannot downcast rows to list."

/-! ## Helper lemmas shared by the claim theorems -/

/-- Rendering `w` hex digits yields a list of exactly `w` characters. -/
theorem hex_digits_length (w : Nat) : ∀ n, (hex_digits w n).length = w := by
  induction w with
  | zero => intro n; simp [hex_digits]
  | succ w ih => intro n; simp [hex_digits, ih]

/-- A successful element-wise decode has one output per input, the i-th
output being the decode of the i-th input. -/
theorem cql_to_py_each_ok (t : ColumnType) :
    ∀ (xs : List CqlValue) (rs : List PyValue),
      cql_to_py_each t xs = .ok rs →
      rs.length = xs.length ∧
      ∀ i (h1 : i < xs.length) (h2 : i < rs.length),
        cql_to_py t (some (xs.get ⟨i, h1⟩)) = .ok (rs.get ⟨i, h2⟩) := by
  intro xs
  induction xs with
  | nil =>
    intro rs h
    simp [cql_to_py_each] at h
    subst h
    exact ⟨rfl, fun i h1 => absurd h1 (Nat.not_lt_zero i)⟩
  | cons v vs ih =>
    intro rs h
    rw [cql_to_py_each] at h
    cases hv : cql_to_py t (some v) with
    | error e => rw [hv] at h; exact absurd h (by simp)
    | ok r =>
      rw [hv] at h
      cases hvs : cql_to_py_each t vs with
      | error e => rw [hvs] at h; exact absurd h (by simp)
      | ok rs' =>
        rw [hvs] at h
        simp only [Except.ok.injEq] at h
        subst h
        obtain ⟨hlen, hidx⟩ := ih rs' hvs
        refine ⟨by simp [hlen], ?_⟩
        intro i h1 h2
        match i with
        | 0 => simpa [List.get] using hv
        | Nat.succ j =>
          have hj1 : j < vs.length := by simpa using h1
          have hj2 : j < rs'.length := by simpa using h2
          simpa [List.get] using hidx j hj1 hj2

/-- If every element before position `i` decodes and the element at `i`
fails with error `e`, the element-wise decode fails with exactly `e`. -/
theorem cql_to_py_each_error (t : ColumnType) :
    ∀ (xs : List CqlValue) (i : Nat) (e : String) (hi : i < xs.length),
      (∀ j (hj : j < i), ∃ r,
        cql_to_py t (some (xs.get ⟨j, Nat.lt_trans hj hi⟩)) = .ok r) →
      cql_to_py t (some (xs.get ⟨i, hi⟩)) = .error e →
      cql_to_py_each t xs = .error e := by
  intro xs
  induction xs with
  | nil => intro i e hi; exact absurd hi (Nat.not_lt_zero i)
  | cons v vs ih =>
    intro i e hi hok herr
    match i with
    | 0 =>
      rw [cql_to_py_each]
      have hv : cql_to_py t (some v) = .error e := by simpa [List.get] using herr
      rw [hv]
    | Nat.succ j =>
      obtain ⟨r, hr⟩ := hok 0 (Nat.succ_pos j)
      rw [cql_to_py_each]
      simp only [List.get] at hr
      rw [hr]
      have hj : j < vs.length := by simpa using hi
      have htail : cql_to_py_each t vs = .error e := by
        refine ih j e hj ?_ (by simpa [List.get] using herr)
        intro k hk
        obtain ⟨r', hr'⟩ := hok (k + 1) (Nat.succ_lt_succ hk)
        exact ⟨r', by simpa [List.get] using hr'⟩
      rw [htail]

/-- A successful zip decode of a tuple has exactly one output per zipped
position (the shorter of the two lists), the i-th output being the decode
of the i-th descriptor against the i-th child value. -/
theorem cql_to_py_tuple_ok :
    ∀ (ts : List ColumnType) (data : List (Option CqlValue)) (rs : List PyValue),
      cql_to_py_tuple ts data = .ok rs →
      rs.length = min ts.length data.length ∧
      ∀ i (h1 : i < ts.length) (h2 : i < data.length) (h3 : i < rs.length),
        cql_to_py (ts.get ⟨i, h1⟩) (data.get ⟨i, h2⟩) = .ok (rs.get ⟨i, h3⟩) := by
  intro ts
  induction ts with
  | nil =>
    intro data rs h
    simp [cql_to_py_tuple] at h
    subst h
    exact ⟨by simp, fun i h1 => absurd h1 (Nat.not_lt_zero i)⟩
  | cons t ts ih =>
    intro data rs h
    cases data with
    | nil =>
      simp [cql_to_py_tuple] at h
      subst h
      exact ⟨by simp, fun i _ h2 => absurd h2 (Nat.not_lt_zero i)⟩
    | cons ov ovs =>
      rw [cql_to_py_tuple] at h
      cases hv : cql_to_py t ov with
      | error e => rw [hv] at h; exact absurd h (by simp)
      | ok r =>
        rw [hv] at h
        cases hrest : cql_to_py_tuple ts ovs with
        | error e => rw [hrest] at h; exact absurd h (by simp)
        | ok rs' =>
          rw [hrest] at h
          simp only [Except.ok.injEq] at h
          subst h
          obtain ⟨hlen, hidx⟩ := ih ovs rs' hrest
          refine ⟨by simp [hlen, Nat.succ_min_succ], ?_⟩
          intro i h1 h2 h3
          match i with
          | 0 => simpa [List.get] using hv
          | Nat.succ j =>
            have hj1 : j < ts.length := by simpa using h1
            have hj2 : j < ovs.length := by simpa using h2
            have hj3 : j < rs'.length := by simpa using h3
            simpa [List.get] using hidx j hj1 hj2 hj3

/-- If every row constructs, the row mapper's fail-fast collect succeeds
with one result per row, in input order. -/
theorem map_rows_each_all_ok {β : Type}
    (as_class : List (PyValue × PyValue) → Except String β) :
    ∀ (entries : List (List (PyValue × PyValue))),
      (∀ e ∈ entries, ∃ b, as_class e = .ok b) →
      ∃ bs, map_rows_each as_class (entries.map PyValue.dict) = .ok bs ∧
        bs.length = entries.length ∧
        ∀ i (h1 : i < entries.length) (h2 : i < bs.length),
          as_class (entries.get ⟨i, h1⟩) = .ok (bs.get ⟨i, h2⟩) := by
  intro entries
  induction entries with
  | nil =>
    intro _
    exact ⟨[], by simp [map_rows_each], rfl, fun i h1 => absurd h1 (Nat.not_lt_zero i)⟩
  | cons e es ih =>
    intro hall
    obtain ⟨b, hb⟩ := hall e (by simp)
    obtain ⟨bs, hbs, hlen, hidx⟩ := ih (fun e' he' => hall e' (by simp [he']))
    refine ⟨b :: bs, ?_, by simp [hlen], ?_⟩
    · simp only [List.map, map_rows_each, map_row_one]
      rw [hb, hbs]
    · intro i h1 h2
      match i with
      | 0 => simpa [List.get] using hb
      | Nat.succ j =>
        have hj1 : j < es.length := by simpa using h1
        have hj2 : j < bs.length := by simpa using h2
        simpa [List.get] using hidx j hj1 hj2

/-- If any row fails to construct, the row mapper's fail-fast collect
fails. -/
theorem map_rows_each_error {β : Type}
    (as_class : List (PyValue × PyValue) → Except String β) :
    ∀ (entries : List (List (PyValue × PyValue))),
      (∃ e ∈ entries, ∃ msg, as_class e = .error msg) →
      ∃ err, map_rows_each as_class (entries.map PyValue.dict) = .error err := by
  intro entries
  induction entries with
  | nil => rintro ⟨e, he, _⟩; exact absurd he (List.not_mem_nil e)
  | cons e es ih =>
    rintro ⟨e', he', msg, hmsg⟩
    cases hhead : as_class e with
    | error err =>
      exact ⟨err, by simp only [List.map, map_rows_each, map_row_one]; rw [hhead]⟩
    | ok b =>
      have he'' : e' ∈ es := by
        rcases List.mem_cons.mp he' with h | h
        · subst h; rw [hhead] at hmsg; exact absurd hmsg (by simp)
        · exact h
      obtain ⟨err, herr⟩ := ih ⟨e', he'', msg, hmsg⟩
      refine ⟨err, ?_⟩
      simp only [List.map, map_rows_each, map_row_one]
      rw [hhead, herr]

/-! ## Claim theorems -/

/-- C1: the claim is violated by the code (code bug).  The host-integer
instance check at src/src/utils.rs line 79 precedes the boolean instance
check at line 81, and in the host runtime every boolean is an instance of
the integer type, so `py_to_value` classifies every boolean value through
the integer branch and encodes it as the 64-bit integer wire variant
carrying 1 or 0 — never as the boolean wire variant.  The boolean branch
of the source is unreachable for actual booleans. -/
theorem bool_param_encoded_as_bigint :
    ∀ (b : Bool) (sub : Option String),
      py_to_value (.pyBool b sub) = .ok (.BigInt (if b then 1 else 0)) := by
  intro b sub
  cases b <;> simp [py_to_value, Except.map]

/-- C2: decoding an absent protocol value yields the host "no value"
marker for every column type descriptor — scalar, composite, or
declared-but-unimplemented — and never an error; the absence check fires
before any dispatch on the descriptor tag. -/
theorem absent_value_decodes_to_none :
    ∀ t : ColumnType, cql_to_py t none = .ok .none := by
  intro t
  simp [cql_to_py]

/-- C3 counterexample: three descriptor slots against a two-element tuple
value decode successfully to a two-element host tuple (zip truncation)
instead of failing with a tuple-shape error, refuting the claim as
stated. -/
theorem tuple_arity_mismatch_counterexample :
    cql_to_py (.Tuple [.Int, .Text, .Int])
      (some (.Tuple [some (.Int 5), some (.Text "x")]))
      = .ok (.tuple [.int 5, .str "x"]) := by
  simp [cql_to_py, cql_to_py_tuple]

/-- C3 (amended): decoding a tuple against a tuple-shaped value zips
descriptors with child values and silently truncates to the shorter side —
a successful decode has exactly `min` of the two arities positions, the
i-th being the recursive decode of the i-th zipped pair; the result is
always a host tuple; a non-tuple-shaped value fails with the tuple-shape
error. -/
theorem tuple_decode_zips_and_truncates :
    (∀ (ts : List ColumnType) (data : List (Option CqlValue)) (rs : List PyValue),
      cql_to_py (.Tuple ts) (some (.Tuple data)) = .ok (.tuple rs) →
      rs.length = min ts.length data.length ∧
      ∀ i (h1 : i < ts.length) (h2 : i < data.length) (h3 : i < rs.length),
        cql_to_py (ts.get ⟨i, h1⟩) (data.get ⟨i, h2⟩) = .ok (rs.get ⟨i, h3⟩)) ∧
    (∀ (ts : List ColumnType) (data : List (Option CqlValue)) (r : PyValue),
      cql_to_py (.Tuple ts) (some (.Tuple data)) = .ok r → ∃ rs, r = .tuple rs) ∧
    (∀ (ts : List ColumnType) (v : CqlValue), is_tuple_value v = false →
      cql_to_py (.Tuple ts) (some v) = .error "Cannot parse as tuple.") := by
  refine ⟨?_, ?_, ?_⟩
  · intro ts data rs h
    rw [cql_to_py] at h
    cases htup : cql_to_py_tuple ts data with
    | error e => rw [htup] at h; exact absurd h (by simp)
    | ok rs' =>
      rw [htup] at h
      simp only [Except.ok.injEq, PyValue.tuple.injEq] at h
      subst h
      exact cql_to_py_tuple_ok ts data rs' htup
  · intro ts data r h
    rw [cql_to_py] at h
    cases htup : cql_to_py_tuple ts data with
    | error e => rw [htup] at h; exact absurd h (by simp)
    | ok rs' =>
      rw [htup] at h
      simp only [Except.ok.injEq] at h
      exact ⟨rs', h.symm⟩
  · intro ts v hv
    cases v <;> simp_all [cql_to_py]

/-- C3 witness: the amended theorem applied at concrete inputs — the
mismatched-arity tuple of the counterexample really has `min 3 2`
positions, and a non-tuple-shaped value really fails. -/
theorem tuple_decode_zips_and_truncates_witness :
    ([PyValue.int 5, PyValue.str "x"] : List PyValue).length = min 3 2 ∧
    cql_to_py (.Tuple []) (some (.Int 0)) = .error "Cannot parse as tuple." := by
  constructor
  · exact (tuple_decode_zips_and_truncates.1 [.Int, .Text, .Int]
      [some (.Int 5), some (.Text "x")] [.int 5, .str "x"]
      (by simp [cql_to_py, cql_to_py_tuple])).1
  · exact tuple_decode_zips_and_truncates.2.2 [] (.Int 0) (by simp)

/-- C4 counterexample: the UUID branch passes the 32-character simple
(non-hyphenated) rendering to the host UUID constructor, not the
36-character canonical hyphenated rendering the claim names. -/
theorem uuid_decode_not_hyphenated_counterexample :
    cql_to_py .Uuid (some (.Uuid 0))
      = .ok (.uuidFromStr "00000000000000000000000000000000") ∧
    uuid_hyphenated 0 = "00000000-0000-0000-0000-000000000000" ∧
    "00000000000000000000000000000000" ≠ "00000000-0000-0000-0000-000000000000" := by
  refine ⟨?_, by decide, by decide⟩
  rw [cql_to_py]
  simp only [as_uuid, Except.ok.injEq, PyValue.uuidFromStr.injEq]
  decide

/-- C4 (amended): for UUID- and time-UUID-declared columns with a matching
protocol value, the decoder renders the simple lowercase non-hyphenated
32-hex-digit form of the UUID and passes exactly that string to the host's
standard UUID constructor; this is never the canonical hyphenated form,
whose rendering has 36 characters against the simple form's 32. -/
theorem uuid_decode_passes_simple_form :
    (∀ u, cql_to_py .Uuid (some (.Uuid u)) = .ok (.uuidFromStr (uuid_simple u))) ∧
    (∀ u, cql_to_py .Timeuuid (some (.Timeuuid u))
        = .ok (.uuidFromStr (uuid_simple u))) ∧
    (∀ u, (uuid_simple u).length = 32 ∧ (uuid_hyphenated u).length = 36) := by
  refine ⟨fun u => by rw [cql_to_py]; simp, fun u => by rw [cql_to_py]; simp, ?_⟩
  intro u
  constructor
  · simp [uuid_simple, String.length, hex_digits_length]
  · simp [uuid_hyphenated, String.length, hex_digits_length]

/-- C5 counterexample: a Float-declared column whose protocol value is
tagged with the single-precision Float kind — the internal tag agrees with
the descriptor, yet the decoder fails, refuting the claim as stated. -/
theorem float_column_float_value_fails_counterexample :
    cql_to_py .Float (some (.Float 0)) = .error "Cannot parse" := by
  simp [cql_to_py]

/-- C5 (amended): the Float branch reads the protocol value through the
double-precision accessor (`as_double`), so it fails with the
"cannot parse" error on every Float-tagged value and succeeds exactly on
Double-tagged values, unwrapping their payload into the host float. -/
theorem float_column_reads_double_accessor :
    (∀ bits, cql_to_py .Float (some (.Float bits)) = .error "Cannot parse") ∧
    (∀ bits, cql_to_py .Float (some (.Double bits)) = .ok (.float bits)) := by
  exact ⟨fun bits => by simp [cql_to_py], fun bits => by simp [cql_to_py]⟩

/-- C6: the row mapper calls the constructor once per row with the row's
entries as keyword arguments: when every row constructs, it returns the
constructed objects in input order, one per row; when any row's
construction fails, the whole call fails and no partial list is
returned. -/
theorem map_rows_once_per_row_fail_fast :
    (∀ (β : Type) (as_class : List (PyValue × PyValue) → Except String β)
        (entries : List (List (PyValue × PyValue))),
      (∀ e ∈ entries, ∃ b, as_class e = .ok b) →
      ∃ bs, map_rows (.list (entries.map PyValue.dict)) as_class = .ok bs ∧
        bs.length = entries.length ∧
        ∀ i (h1 : i < entries.length) (h2 : i < bs.length),
          as_class (entries.get ⟨i, h1⟩) = .ok (bs.get ⟨i, h2⟩)) ∧
    (∀ (β : Type) (as_class : List (PyValue × PyValue) → Except String β)
        (entries : List (List (PyValue × PyValue))),
      (∃ e ∈ entries, ∃ msg, as_class e = .error msg) →
      ∃ err, map_rows (.list (entries.map PyValue.dict)) as_class = .error err) := by
  constructor
  · intro β as_class entries hall
    simpa [map_rows] using map_rows_each_all_ok as_class entries hall
  · intro β as_class entries hfail
    simpa [map_rows] using map_rows_each_error as_class entries hfail

/-- C6 witness: the theorem applied to two concrete rows with a concrete
constructor — both rows construct and the mapper succeeds; replacing the
second row with one the constructor rejects makes the whole call fail. -/
theorem map_rows_once_per_row_fail_fast_witness :
    (∃ bs, map_rows
        (.list ([[(PyValue.str "id", PyValue.int 1)],
                 [(PyValue.str "id", PyValue.int 2)]].map PyValue.dict))
        (fun e => if e.length = 0 then (Except.error "missing" : Except String Nat)
          else .ok e.length) = .ok bs) ∧
    (∃ err, map_rows
        (.list ([[(PyValue.str "id", PyValue.int 1)], []].map PyValue.dict))
        (fun e => if e.length = 0 then (Except.error "missing" : Except String Nat)
          else .ok e.length) = .error err) := by
  constructor
  · obtain ⟨bs, hbs, -⟩ := map_rows_once_per_row_fail_fast.1 Nat
      (fun e => if e.length = 0 then .error "missing" else .ok e.length)
      [[(PyValue.str "id", PyValue.int 1)], [(PyValue.str "id", PyValue.int 2)]]
      (by
        intro e he
        simp only [List.mem_cons, List.not_mem_nil, or_false] at he
        rcases he with rfl | rfl <;> exact ⟨1, rfl⟩)
    exact ⟨bs, hbs⟩
  · exact map_rows_once_per_row_fail_fast.2 Nat
      (fun e => if e.length = 0 then .error "missing" else .ok e.length)
      [[(PyValue.str "id", PyValue.int 1)], []]
      ⟨[], by simp, "missing", rfl⟩

/-- C7: the consistency mapping is total on the closed nine-member host
enumeration with no failure path, and sends each member to its transport
counterpart exactly as the claim lists. -/
theorem consistency_mapping_total :
    ScyllaConsistency.from_consistency .ANY = .Any ∧
    ScyllaConsistency.from_consistency .ONE = .One ∧
    ScyllaConsistency.from_consistency .TWO = .Two ∧
    ScyllaConsistency.from_consistency .THREE = .Three ∧
    ScyllaConsistency.from_consistency .QUORUM = .Quorum ∧
    ScyllaConsistency.from_consistency .ALL = .All ∧
    ScyllaConsistency.from_consistency .LOCAL_QUORUM = .LocalQuorum ∧
    ScyllaConsistency.from_consistency .EACH_QUORUM = .EachQuorum ∧
    ScyllaConsistency.from_consistency .LOCAL_ONE = .LocalOne := by
  exact ⟨rfl, rfl, rfl, rfl, rfl, rfl, rfl, rfl, rfl⟩

/-- C8: decoding a list column over a list-shaped value yields an ordered
host sequence with one position per protocol element, the i-th being the
recursive decode of the i-th element in received order; and if the first
failing element fails with error `e`, the whole list decode fails with
exactly `e`. -/
theorem list_decode_order_and_fail_fast :
    (∀ (t : ColumnType) (xs : List CqlValue) (r : PyValue),
      cql_to_py (.List t) (some (.List xs)) = .ok r →
      ∃ items, r = .list items ∧ items.length = xs.length ∧
        ∀ i (h1 : i < xs.length) (h2 : i < items.length),
          cql_to_py t (some (xs.get ⟨i, h1⟩)) = .ok (items.get ⟨i, h2⟩)) ∧
    (∀ (t : ColumnType) (xs : List CqlValue) (i : Nat) (e : String)
        (hi : i < xs.length),
      (∀ j (hj : j < i), ∃ r,
        cql_to_py t (some (xs.get ⟨j, Nat.lt_trans hj hi⟩)) = .ok r) →
      cql_to_py t (some (xs.get ⟨i, hi⟩)) = .error e →
      cql_to_py (.List t) (some (.List xs)) = .error e) := by
  constructor
  · intro t xs r h
    rw [cql_to_py] at h
    simp only [as_list] at h
    cases heach : cql_to_py_each t xs with
    | error e => rw [heach] at h; exact absurd h (by simp)
    | ok items =>
      rw [heach] at h
      simp only [Except.ok.injEq] at h
      obtain ⟨hlen, hidx⟩ := cql_to_py_each_ok t xs items heach
      exact ⟨items, h.symm, hlen, hidx⟩
  · intro t xs i e hi hok herr
    rw [cql_to_py]
    simp only [as_list]
    rw [cql_to_py_each_error t xs i e hi hok herr]

/-- C8 witness: the theorem applied at a concrete list — `list<int>` over
`[1, 2]` decodes to `[1, 2]` in order, and putting a text value at
position 1 makes the whole decode fail with that element's error. -/
theorem list_decode_order_and_fail_fast_witness :
    (∃ items, PyValue.list [PyValue.int 1, PyValue.int 2] = .list items ∧
      items.length = 2 ∧
      ∀ i (h1 : i < ([CqlValue.Int 1, CqlValue.Int 2] : List CqlValue).length)
          (h2 : i < items.length),
        cql_to_py .Int (some (([CqlValue.Int 1, CqlValue.Int 2] : List CqlValue).get ⟨i, h1⟩))
          = .ok (items.get ⟨i, h2⟩)) ∧
    cql_to_py (.List .Int) (some (.List [.Int 1, .Text "a"])) = .error "Cannot parse" := by
  constructor
  · exact list_decode_order_and_fail_fast.1 .Int [.Int 1, .Int 2]
      (.list [.int 1, .int 2])
      (by rw [cql_to_py]; simp [cql_to_py_each]; rw [cql_to_py, cql_to_py]; simp)
  · refine list_decode_order_and_fail_fast.2 .Int [.Int 1, .Text "a"] 1
      "Cannot parse" (by decide) ?_ (by rw [cql_to_py]; simp)
    intro j hj
    have hj0 : j = 0 := by omega
    subst hj0
    exact ⟨.int 1, by rw [cql_to_py]; simp⟩

/-- C9: decoding a duration-kind protocol value produces a host duration at
microsecond granularity — the microseconds passed to the host duration
constructor bracket the wire nanoseconds from below (truncation, never
rounding up); in particular 1 500 000 wire nanoseconds decode to exactly
1500 host microseconds. -/
theorem duration_decode_truncates_to_microseconds :
    cql_to_py .Duration (some (.Duration 1500000)) = .ok (.timedelta 1500) ∧
    ∀ ns : Int, 0 ≤ ns →
      ∃ micros, cql_to_py .Duration (some (.Duration ns)) = .ok (.timedelta micros) ∧
        1000 * micros ≤ ns ∧ ns < 1000 * micros + 1000 := by
  constructor
  · rw [cql_to_py]
    simp only [as_duration, num_microseconds, Except.ok.injEq, PyValue.timedelta.injEq]
    decide
  · intro ns hns
    refine ⟨num_microseconds ns, by rw [cql_to_py]; simp, ?_⟩
    unfold num_microseconds
    rw [Int.tdiv_eq_ediv hns (by norm_num)]
    omega

/-- C9 witness: the truncation bound applied at the concrete wire value
1 500 000 nanoseconds. -/
theorem duration_decode_truncates_to_microseconds_witness :
    ∃ micros, cql_to_py .Duration (some (.Duration 1500000))
        = .ok (.timedelta micros) ∧
      1000 * micros ≤ 1500000 ∧ 1500000 < 1000 * micros + 1000 :=
  duration_decode_truncates_to_microseconds.2 1500000 (by decide)

/-- C10 counterexample: a value of a strict subclass of `list` whose class
is named "UUID" is not recursively encoded as a nested sequence wire value
as the claim requires for every list subclass — the name check for the
UUID branch fires first and the encoder fails with the UUID parse error. -/
theorem collection_subclass_named_uuid_counterexample :
    py_to_value (.pyList [] (some "UUID")) = .error "invalid UUID" := by
  simp [py_to_value, PyObj.type_name, PyObj.str_form, uuid_parse_str, Except.map]

/-- C10 (amended): provided the value's runtime type name is not claimed by
an earlier branch ("UUID", "IPv4Address", "IPv6Address"), the collection
branch behaves as the claim says: values whose type is exactly `tuple` or
`set`, or is `list` or any subclass of `list`, are recursively encoded as
a nested sequence wire value, while values of a strict subclass of `tuple`
or of `set` are not matched and fail with the unsupported-type error
naming their runtime type. -/
theorem collection_branch_type_checks :
    (∀ xs, py_to_value (.pyList xs none) = (py_to_value_list xs).map PyToValue.List) ∧
    (∀ xs name, name ≠ "UUID" → name ≠ "IPv4Address" → name ≠ "IPv6Address" →
      py_to_value (.pyList xs (some name))
        = (py_to_value_list xs).map PyToValue.List) ∧
    (∀ xs, py_to_value (.pyTuple xs none) = (py_to_value_list xs).map PyToValue.List) ∧
    (∀ xs, py_to_value (.pySet xs none) = (py_to_value_list xs).map PyToValue.List) ∧
    (∀ xs name, name ≠ "UUID" → name ≠ "IPv4Address" → name ≠ "IPv6Address" →
      py_to_value (.pyTuple xs (some name))
        = .error ("Unsupported type for parameter binding: \"" ++ name ++ "\"")) ∧
    (∀ xs name, name ≠ "UUID" → name ≠ "IPv4Address" → name ≠ "IPv6Address" →
      py_to_value (.pySet xs (some name))
        = .error ("Unsupported type for parameter binding: \"" ++ name ++ "\"")) := by
  refine ⟨?_, ?_, ?_, ?_, ?_, ?_⟩
  · intro xs; rw [py_to_value]; simp [PyObj.type_name]
  · intro xs name h1 h2 h3; rw [py_to_value]; simp [PyObj.type_name, h1, h2, h3]
  · intro xs; rw [py_to_value]; simp [PyObj.type_name]
  · intro xs; rw [py_to_value]; simp [PyObj.type_name]
  · intro xs name h1 h2 h3; rw [py_to_value]; simp [PyObj.type_name, h1, h2, h3]
  · intro xs name h1 h2 h3; rw [py_to_value]; simp [PyObj.type_name, h1, h2, h3]

/-- C10 witness: the amended theorem applied at concrete subclasses — a
list subclass named "MyList" is encoded through the collection branch,
while tuple and set subclasses named "Point" and "FrozenLike" fail with
the unsupported-type error naming those classes. -/
theorem collection_branch_type_checks_witness :
    py_to_value (.pyList [] (some "MyList"))
      = (py_to_value_list []).map PyToValue.List ∧
    py_to_value (.pyTuple [] (some "Point"))
      = .error ("Unsupported type for parameter binding: \"" ++ "Point" ++ "\"") ∧
    py_to_value (.pySet [] (some "FrozenLike"))
      = .error ("Unsupported type for parameter binding: \"" ++ "FrozenLike" ++ "\"") := by
  refine ⟨?_, ?_, ?_⟩
  · exact collection_branch_type_checks.2.1 [] "MyList"
      (by decide) (by decide) (by decide)
  · exact collection_branch_type_checks.2.2.2.2.1 [] "Point"
      (by decide) (by decide) (by decide)
  · exact collection_branch_type_checks.2.2.2.2.2 [] "FrozenLike"
      (by decide) (by decide) (by decide)

end Scyllaft
